import Mathlib

/-!
Verification of the `safeinput` C library (`src/safeinput.c`, version 1.1.0).

Shallow embedding: the standard input stream is modelled as a `List Nat` of
byte values (each 0..255, `'\n'` is 10); reaching the end of the list models
end-of-file, so `getchar_unlocked()` returns the head byte or EOF (-1) on the
empty list.  Diagnostic messages written to stderr are modelled by the
inductive type `Diag`, one constructor per distinct message of the library;
every modelled function returns, alongside its value, the remaining stream
and the list of diagnostics it emitted, in order.  `malloc` is modelled as
always succeeding; NULL-pointer arguments (which the C library either
rejects up front or has as preconditions) are not representable, since the
Lean model passes lists by value.  `long`, `unsigned long`, `long long` and
`unsigned long long` are 64-bit and `int` / `unsigned int` are 32-bit, as on
the x86-64 Linux target the repository's Makefile compiles for.
-/

namespace SafeInput

/-- Diagnostic messages the library writes to stderr, one constructor per
distinct `si_printError` / `fprintf` call site. -/
inductive Diag where
  /-- "Input exceeding buffer size. Try again." (printed by `si_readByte`) -/
  | overrun
  /-- "Invalid input. Try again." -/
  | invalidInput
  /-- "Value can not be negative." (printed by `si_getUInt`) -/
  | negative
  /-- "Invalid input. Please enter a single character." -/
  | singleChar
  /-- "Invalid input. Allowed: %s" (printed by `si_getCharFiltered`) -/
  | allowedList (allowed : List Nat)
  /-- "No allowed characters specified. Exiting." -/
  | noAllowed
  /-- "Invalid input. Enter 'y' or 'n'." (printed by `si_getBool`) -/
  | enterYN
  /-- "EOF detected. Returning false by default." (printed by `si_getBool`) -/
  | eofFalse
deriving DecidableEq, Repr

/-- How the byte-reading `for` loop of `si_readByte` terminated: the variable
`c` held `'\n'`, `c` held `EOF`, or the index `i` reached `maxLen`. -/
inductive ExitKind where
  | newline
  | eofBreak
  | full
deriving DecidableEq, Repr

/-- The `for` loop of `si_readByte`: reads at most `m` bytes, stopping at a
newline (consumed, not stored) or end of stream.  Returns the bytes stored
into `buf`, the exit condition, and the remaining stream. -/
def si_readLoop : Nat → List Nat → List Nat × ExitKind × List Nat
  | 0, s => ([], ExitKind.full, s)
  | _ + 1, [] => ([], ExitKind.eofBreak, [])
  | m + 1, c :: rest =>
    if c = 10 then ([], ExitKind.newline, rest)
    else
      let o := si_readLoop m rest
      (c :: o.1, o.2.1, o.2.2)

/-- `si_drainStdin`: reads and discards bytes until a newline or EOF. -/
def si_drainStdin : List Nat → List Nat
  | [] => []
  | c :: rest => if c = 10 then rest else si_drainStdin rest

/-- Outcome of one `si_readByte` call: the C return value (`0` success,
`1` error or overrun, `-1` EOF), the bytes stored in `buf`, the value stored
through `outLen`, the remaining input stream, and the diagnostics emitted. -/
structure ReadOut where
  res : Int
  buf : List Nat
  len : Nat
  rest : List Nat
  diags : List Diag
deriving DecidableEq, Repr

/-- `si_readByte(buf, maxLen, outLen)`: read up to `maxLen` bytes into `buf`,
stop at newline or EOF, drain excess input on overrun, report the length.
The `buf == NULL` / `outLen == NULL` argument checks are not representable
in the model; the `maxLen < 1` check is.  `si_readByte_post` is the part of
`si_readByte` after the reading loop: the overrun check (with drain and
report), the EOF check, and the success return. -/
def si_readByte_post (o : List Nat × ExitKind × List Nat) : ReadOut :=
  match o.2.1 with
  | ExitKind.full => ⟨1, o.1, o.1.length, si_drainStdin o.2.2, [Diag.overrun]⟩
  | ExitKind.eofBreak =>
    if o.1.length = 0 then ⟨-1, o.1, 0, o.2.2, []⟩ else ⟨0, o.1, o.1.length, o.2.2, []⟩
  | ExitKind.newline => ⟨0, o.1, o.1.length, o.2.2, []⟩

def si_readByte (maxLen : Nat) (s : List Nat) : ReadOut :=
  if maxLen < 1 then ⟨1, [], 0, s, []⟩ else si_readByte_post (si_readLoop maxLen s)

/-- `isspace` on a byte, as used by `strtol`-family whitespace skipping. -/
def si_isSpace (c : Nat) : Bool := c == 32 || (decide (9 ≤ c) && decide (c ≤ 13))

/-- decimal digit test -/
def si_isDigit (c : Nat) : Bool := decide (48 ≤ c) && decide (c ≤ 57)

/-- Numeric value of a decimal digit string. -/
def digitsVal (ds : List Nat) : Nat := ds.foldl (fun a d => a * 10 + (d - 48)) 0

/-- The bytes a `strtol`-family call actually sees when the buffer `w` is
passed as a C string: everything up to the first NUL byte. -/
def cstrOf (w : List Nat) : List Nat := w.takeWhile (fun c => c != 0)

/-- The byte `*endptr` after a conversion consumed `consumed` bytes of the
buffer `w` (the accessors store a NUL terminator at index `w.length`). -/
def endByte (w : List Nat) (consumed : Nat) : Nat := (w ++ [0]).getD consumed 0

/-- Optional sign accepted by `strtol` / `strtoul`:
(sign, bytes consumed, remainder). -/
def parseSign : List Nat → Int × Nat × List Nat
  | 45 :: r => (-1, 1, r)
  | 43 :: r => (1, 1, r)
  | r => (1, 0, r)

/-- `LONG_MAX` on the 64-bit target -/
def longMax : Int := 2 ^ 63 - 1
/-- `LONG_MIN` on the 64-bit target -/
def longMin : Int := -(2 ^ 63)
/-- `INT_MAX` -/
def intMax : Int := 2 ^ 31 - 1
/-- `INT_MIN` -/
def intMin : Int := -(2 ^ 31)
/-- `UINT_MAX` -/
def uintMax : Nat := 2 ^ 32 - 1
/-- `ULONG_MAX` (= `ULLONG_MAX` on the 64-bit target) -/
def ulongMax : Nat := 2 ^ 64 - 1

/-- Result of a `strtol` call: value, `endptr - nptr`, and whether `errno`
was set to `ERANGE`. -/
structure ConvOut where
  val : Int
  consumed : Nat
  erange : Bool
deriving DecidableEq, Repr

/-- `strtol(nptr, &endptr, 10)`: skip whitespace, optional sign, decimal
digits; if no digits were found `endptr = nptr`; clamp to
`[LONG_MIN, LONG_MAX]` with `ERANGE` on overflow. -/
def strtol (s : List Nat) : ConvOut :=
  let ws := (s.takeWhile si_isSpace).length
  let r1 := s.dropWhile si_isSpace
  let sg := parseSign r1
  let ds := sg.2.2.takeWhile si_isDigit
  if ds.isEmpty then ⟨0, 0, false⟩
  else
    let v : Int := sg.1 * (digitsVal ds : Nat)
    let consumed := ws + sg.2.1 + ds.length
    if longMax < v then ⟨longMax, consumed, true⟩
    else if v < longMin then ⟨longMin, consumed, true⟩
    else ⟨v, consumed, false⟩

/-- Result of a `strtoul` / `strtoull` call. -/
structure UConvOut where
  val : Nat
  consumed : Nat
  erange : Bool
deriving DecidableEq, Repr

/-- `strtoul(nptr, &endptr, 10)` (= `strtoull` on the 64-bit target): as
`strtol`, but a leading minus sign negates the value modulo 2^64 (C17
7.22.1.4p5), and `ERANGE` is raised when the magnitude exceeds
`ULONG_MAX`. -/
def strtoul (s : List Nat) : UConvOut :=
  let ws := (s.takeWhile si_isSpace).length
  let r1 := s.dropWhile si_isSpace
  let sg := parseSign r1
  let ds := sg.2.2.takeWhile si_isDigit
  if ds.isEmpty then ⟨0, 0, false⟩
  else
    let n := digitsVal ds
    let consumed := ws + sg.2.1 + ds.length
    if ulongMax < n then ⟨ulongMax, consumed, true⟩
    else if sg.1 = -1 then ⟨(2 ^ 64 - n) % 2 ^ 64, consumed, false⟩
    else ⟨n, consumed, false⟩

/-- One iteration of a retry loop either returns a value to the caller or
loops with the remaining stream; both record the diagnostics emitted. -/
inductive StepOut (α : Type) where
  | ret (v : α) (rest : List Nat) (diags : List Diag)
  | retry (rest : List Nat) (diags : List Diag)
deriving DecidableEq, Repr

/-- The validation of `si_getInt` on the NUL-terminated buffer `w`:
`strtol`, then reject if `endptr == buffer`, `*endptr != '\0'`,
`errno == ERANGE`, or `value != (int)value`. -/
def intParse (w : List Nat) : Option Int :=
  let c := strtol (cstrOf w)
  if c.consumed = 0 ∨ endByte w c.consumed ≠ 0 ∨ c.erange = true ∨
      c.val < intMin ∨ intMax < c.val then none
  else some c.val

/-- The validation of `si_getUInt` after the leading-minus check: `strtoul`,
then reject if `endptr == buffer`, `*endptr != '\0'`, `errno == ERANGE`, or
`value > UINT_MAX`. -/
def uintParse (w : List Nat) : Option Nat :=
  let c := strtoul (cstrOf w)
  if c.consumed = 0 ∨ endByte w c.consumed ≠ 0 ∨ c.erange = true ∨
      uintMax < c.val then none
  else some c.val

/-- The validation of `si_getULong`: `strtoul`, then reject if
`endptr == buffer`, `*endptr != '\0'`, or `errno == ERANGE`.  There is no
leading-minus check in `si_getULong`. -/
def ulongParse (w : List Nat) : Option Nat :=
  let c := strtoul (cstrOf w)
  if c.consumed = 0 ∨ endByte w c.consumed ≠ 0 ∨ c.erange = true then none
  else some c.val

/-- The validation of `si_getULongLong`: `strtoull`, then reject if
`endptr == buffer`, `*endptr != '\0'`, or `errno == ERANGE`.  There is no
leading-minus check in `si_getULongLong`. -/
def ulongLongParse (w : List Nat) : Option Nat :=
  let c := strtoul (cstrOf w)
  if c.consumed = 0 ∨ endByte w c.consumed ≠ 0 ∨ c.erange = true then none
  else some c.val

/-- Body of one iteration of the `si_getInt` loop, applied to the
`si_readByte` outcome.  A nonzero `si_readByte` result (overrun or EOF)
returns the `INT_MIN` sentinel at once. -/
def si_getInt_post (r : ReadOut) : StepOut Int :=
  if r.res ≠ 0 then StepOut.ret intMin r.rest r.diags
  else
    match intParse r.buf with
    | none => StepOut.retry r.rest (r.diags ++ [Diag.invalidInput])
    | some v => StepOut.ret v r.rest r.diags

/-- One iteration of the `si_getInt` loop on the stream `s`. -/
def si_getInt_step (s : List Nat) : StepOut Int := si_getInt_post (si_readByte 127 s)

/-- Body of one iteration of the `si_getUInt` loop.  The leading-minus check
(`buffer[0] == '-'`) precedes the generic validation. -/
def si_getUInt_post (r : ReadOut) : StepOut Nat :=
  if r.res ≠ 0 then StepOut.ret uintMax r.rest r.diags
  else if r.buf.headD 0 = 45 then StepOut.retry r.rest (r.diags ++ [Diag.negative])
  else
    match uintParse r.buf with
    | none => StepOut.retry r.rest (r.diags ++ [Diag.invalidInput])
    | some v => StepOut.ret v r.rest r.diags

/-- One iteration of the `si_getUInt` loop on the stream `s`. -/
def si_getUInt_step (s : List Nat) : StepOut Nat := si_getUInt_post (si_readByte 127 s)

/-- Body of one iteration of the `si_getULong` loop. -/
def si_getULong_post (r : ReadOut) : StepOut Nat :=
  if r.res ≠ 0 then StepOut.ret ulongMax r.rest r.diags
  else
    match ulongParse r.buf with
    | none => StepOut.retry r.rest (r.diags ++ [Diag.invalidInput])
    | some v => StepOut.ret v r.rest r.diags

/-- One iteration of the `si_getULong` loop on the stream `s`. -/
def si_getULong_step (s : List Nat) : StepOut Nat := si_getULong_post (si_readByte 127 s)

/-- Body of one iteration of the `si_getULongLong` loop. -/
def si_getULongLong_post (r : ReadOut) : StepOut Nat :=
  if r.res ≠ 0 then StepOut.ret ulongMax r.rest r.diags
  else
    match ulongLongParse r.buf with
    | none => StepOut.retry r.rest (r.diags ++ [Diag.invalidInput])
    | some v => StepOut.ret v r.rest r.diags

/-- One iteration of the `si_getULongLong` loop on the stream `s`. -/
def si_getULongLong_step (s : List Nat) : StepOut Nat :=
  si_getULongLong_post (si_readByte 127 s)

/-- Body of one iteration of the `si_getChar` loop: EOF returns the `EOF`
sentinel, a `si_readByte` error/overrun (result 1) retries, a zero-length
line returns `'\n'`, a one-byte line returns `(unsigned char)buffer[0]`,
anything longer is reported and retried. -/
def si_getChar_post (r : ReadOut) : StepOut Int :=
  if r.res = -1 then StepOut.ret (-1) r.rest r.diags
  else if r.res = 1 then StepOut.retry r.rest r.diags
  else if r.len = 0 then StepOut.ret 10 r.rest r.diags
  else if r.len = 1 then StepOut.ret (r.buf.headD 0 : Nat) r.rest r.diags
  else StepOut.retry r.rest (r.diags ++ [Diag.singleChar])

/-- One iteration of the `si_getChar` loop on the stream `s`
(`CHAR_INPUT_BUFFER_SIZE - 1 = 3`). -/
def si_getChar_step (s : List Nat) : StepOut Int := si_getChar_post (si_readByte 3 s)

/-- Body of one iteration of the `si_getCharFiltered` loop.  `strchr`
succeeds on the read byte `c` when `c` occurs in the allow-set, or when
`c = 0` (strchr also finds the string's NUL terminator). -/
def si_getCharFiltered_post (allowed : List Nat) (r : ReadOut) : StepOut Int :=
  if r.res = -1 then StepOut.ret (-1) r.rest r.diags
  else if r.res = 1 then StepOut.retry r.rest r.diags
  else if r.len ≠ 1 then StepOut.retry r.rest (r.diags ++ [Diag.singleChar])
  else
    let c := r.buf.headD 0
    if c = 0 ∨ (cstrOf allowed).contains c then StepOut.ret (c : Nat) r.rest r.diags
    else StepOut.retry r.rest (r.diags ++ [Diag.allowedList allowed])

/-- One iteration of the `si_getCharFiltered` loop on the stream `s`. -/
def si_getCharFiltered_step (allowed : List Nat) (s : List Nat) : StepOut Int :=
  si_getCharFiltered_post allowed (si_readByte 3 s)

/-- Reading a newline-terminated line shorter than the capacity: the loop
stops at the newline, stores the whole line, and consumes the newline. -/
lemma si_readLoop_newline (line : List Nat) (m : Nat) (rest : List Nat)
    (hnl : ∀ c ∈ line, c ≠ 10) (hlen : line.length < m) :
    si_readLoop m (line ++ 10 :: rest) = (line, ExitKind.newline, rest) := by
  induction line generalizing m with
  | nil =>
    match m, hlen with
    | k + 1, _ => simp [si_readLoop]
  | cons a l ih =>
    match m, hlen with
    | k + 1, hlen =>
      have ha : a ≠ 10 := hnl a (by simp)
      have hnl2 : ∀ c ∈ l, c ≠ 10 := fun c hc => hnl c (List.mem_cons_of_mem a hc)
      have hl : l.length < k := by simpa using hlen
      simp [si_readLoop, ha, ih k hnl2 hl]

/-- Reading a newline-terminated line at least as long as the capacity: the
loop fills the buffer with the first `m` bytes and leaves the rest. -/
lemma si_readLoop_full (m : Nat) (line rest : List Nat)
    (hnl : ∀ c ∈ line, c ≠ 10) (hlen : m ≤ line.length) :
    si_readLoop m (line ++ 10 :: rest) =
      (line.take m, ExitKind.full, line.drop m ++ 10 :: rest) := by
  induction m generalizing line with
  | zero => simp [si_readLoop]
  | succ k ih =>
    match line, hlen with
    | a :: l, hlen =>
      have ha : a ≠ 10 := hnl a (by simp)
      have hnl2 : ∀ c ∈ l, c ≠ 10 := fun c hc => hnl c (List.mem_cons_of_mem a hc)
      have hl : k ≤ l.length := by simpa using hlen
      simp [si_readLoop, ha, ih l hnl2 hl]

/-- Draining a line with no interior newline consumes through the newline. -/
lemma si_drainStdin_line (l rest : List Nat) (hnl : ∀ c ∈ l, c ≠ 10) :
    si_drainStdin (l ++ 10 :: rest) = rest := by
  induction l with
  | nil => simp [si_drainStdin]
  | cons a t ih =>
    have ha : a ≠ 10 := hnl a (by simp)
    have hnl2 : ∀ c ∈ t, c ≠ 10 := fun c hc => hnl c (List.mem_cons_of_mem a hc)
    simp [si_drainStdin, ha, ih hnl2]

/-- Draining never lengthens the stream. -/
lemma si_drainStdin_length_le (s : List Nat) : (si_drainStdin s).length ≤ s.length := by
  induction s with
  | nil => simp [si_drainStdin]
  | cons c r ih =>
    by_cases hc : c = 10
    · simp [si_drainStdin, hc]
    · simp [si_drainStdin, hc]
      omega

/-- `si_readByte` on a newline-terminated line shorter than the capacity:
success, the whole line in the buffer, the newline consumed. -/
lemma si_readByte_line_ok (m : Nat) (line rest : List Nat) (hm : 1 ≤ m)
    (hnl : ∀ c ∈ line, c ≠ 10) (hlen : line.length < m) :
    si_readByte m (line ++ 10 :: rest) = ⟨0, line, line.length, rest, []⟩ := by
  unfold si_readByte
  rw [if_neg (by omega), si_readLoop_newline line m rest hnl hlen]
  simp [si_readByte_post]

/-- `si_readByte` on a newline-terminated line at least as long as the
capacity: overrun (result 1), the first `m` bytes in the buffer, the rest of
the line drained through the newline, the overrun diagnostic emitted. -/
lemma si_readByte_line_overrun (m : Nat) (line rest : List Nat) (hm : 1 ≤ m)
    (hnl : ∀ c ∈ line, c ≠ 10) (hlen : m ≤ line.length) :
    si_readByte m (line ++ 10 :: rest) = ⟨1, line.take m, m, rest, [Diag.overrun]⟩ := by
  unfold si_readByte
  have hdrop : ∀ c ∈ line.drop m, c ≠ 10 := fun c hc => hnl c (List.drop_subset m line hc)
  rw [if_neg (by omega), si_readLoop_full m line rest hnl hlen]
  have hd : si_drainStdin (line.drop m ++ 10 :: rest) = rest := si_drainStdin_line _ _ hdrop
  simp [si_readByte_post, hd, List.length_take, Nat.min_eq_left hlen]

/-- `si_readByte` at end of stream: the EOF signal, nothing read. -/
lemma si_readByte_nil (m : Nat) (hm : 1 ≤ m) :
    si_readByte m [] = ⟨-1, [], 0, [], []⟩ := by
  match m, hm with
  | k + 1, _ =>
    unfold si_readByte
    rw [if_neg (by omega)]
    simp [si_readLoop, si_readByte_post]

/-- Structure of the loop outcome relative to the input stream: the stored
bytes are an initial segment of the stream, followed (according to the exit
condition) by the consumed newline and the remainder, by nothing, or by the
unread remainder after a full buffer. -/
lemma si_readLoop_shape (m : Nat) (s w : List Nat) (k : ExitKind) (s2 : List Nat)
    (he : si_readLoop m s = (w, k, s2)) :
    (k = ExitKind.newline → s = w ++ 10 :: s2) ∧
    (k = ExitKind.eofBreak → s = w ∧ s2 = []) ∧
    (k = ExitKind.full → s = w ++ s2 ∧ w.length = m) := by
  induction m generalizing s w k s2 with
  | zero =>
    simp [si_readLoop] at he
    obtain ⟨rfl, rfl, rfl⟩ := he
    simp
  | succ n ih =>
    match s with
    | [] =>
      simp [si_readLoop] at he
      obtain ⟨rfl, rfl, rfl⟩ := he
      simp
    | c :: r =>
      by_cases hc : c = 10
      · subst hc
        simp [si_readLoop] at he
        obtain ⟨rfl, rfl, rfl⟩ := he
        simp
      · rcases hr : si_readLoop n r with ⟨w2, k2, s3⟩
        simp only [si_readLoop, if_neg hc, hr] at he
        injection he with h1 h23
        injection h23 with h2 h3
        subst h1
        subst h2
        subst h3
        have hi := ih r w2 k2 s3 hr
        refine ⟨fun h => ?_, fun h => ?_, fun h => ?_⟩
        · rw [hi.1 h]; simp
        · exact ⟨by rw [(hi.2.1 h).1], (hi.2.1 h).2⟩
        · exact ⟨by rw [(hi.2.2 h).1]; simp, by simpa using (hi.2.2 h).2⟩

/-- Unless `si_readByte` signals EOF, it consumed at least one byte of the
stream. -/
lemma si_readByte_consumes (m : Nat) (s : List Nat) (hm : 1 ≤ m)
    (h : (si_readByte m s).res ≠ -1) :
    (si_readByte m s).rest.length < s.length := by
  unfold si_readByte at h ⊢
  rw [if_neg (by omega)] at h ⊢
  rcases he : si_readLoop m s with ⟨w, k, s2⟩
  rw [he] at h
  have hshape := si_readLoop_shape m s w k s2 he
  cases k with
  | newline =>
    have hs := hshape.1 rfl
    subst hs
    simp [si_readByte_post]
    omega
  | eofBreak =>
    obtain ⟨hs1, hs2⟩ := hshape.2.1 rfl
    subst hs2
    by_cases h0 : w.length = 0
    · simp [si_readByte_post, h0] at h
    · rw [hs1]
      simp [si_readByte_post, h0]
      omega
  | full =>
    obtain ⟨hs1, hs2⟩ := hshape.2.2 rfl
    have hd := si_drainStdin_length_le s2
    rw [hs1]
    simp [si_readByte_post]
    omega

/-- A retrying iteration of the `si_getInt` loop consumed part of the
stream (ensures the loop is well defined on finite streams). -/
lemma si_getInt_step_retry (s r : List Nat) (ds : List Diag)
    (h : si_getInt_step s = StepOut.retry r ds) : r.length < s.length := by
  unfold si_getInt_step si_getInt_post at h
  by_cases h1 : (si_readByte 127 s).res ≠ 0
  · rw [if_pos h1] at h
    cases h
  · rw [if_neg h1] at h
    push_neg at h1
    have hne : (si_readByte 127 s).res ≠ -1 := by rw [h1]; decide
    have hlt := si_readByte_consumes 127 s (by omega) hne
    cases hp : intParse (si_readByte 127 s).buf with
    | none =>
      rw [hp] at h
      injection h with h3 h4
      rw [← h3]
      exact hlt
    | some v =>
      rw [hp] at h
      cases h

/-- A retrying iteration of the `si_getUInt` loop consumed part of the
stream. -/
lemma si_getUInt_step_retry (s r : List Nat) (ds : List Diag)
    (h : si_getUInt_step s = StepOut.retry r ds) : r.length < s.length := by
  unfold si_getUInt_step si_getUInt_post at h
  by_cases h1 : (si_readByte 127 s).res ≠ 0
  · rw [if_pos h1] at h
    cases h
  · rw [if_neg h1] at h
    push_neg at h1
    have hne : (si_readByte 127 s).res ≠ -1 := by rw [h1]; decide
    have hlt := si_readByte_consumes 127 s (by omega) hne
    by_cases h2 : (si_readByte 127 s).buf.headD 0 = 45
    · rw [if_pos h2] at h
      injection h with h3 h4
      rw [← h3]
      exact hlt
    · rw [if_neg h2] at h
      cases hp : uintParse (si_readByte 127 s).buf with
      | none =>
        rw [hp] at h
        injection h with h3 h4
        rw [← h3]
        exact hlt
      | some v =>
        rw [hp] at h
        cases h

/-- A retrying iteration of the `si_getULong` loop consumed part of the
stream. -/
lemma si_getULong_step_retry (s r : List Nat) (ds : List Diag)
    (h : si_getULong_step s = StepOut.retry r ds) : r.length < s.length := by
  unfold si_getULong_step si_getULong_post at h
  by_cases h1 : (si_readByte 127 s).res ≠ 0
  · rw [if_pos h1] at h
    cases h
  · rw [if_neg h1] at h
    push_neg at h1
    have hne : (si_readByte 127 s).res ≠ -1 := by rw [h1]; decide
    have hlt := si_readByte_consumes 127 s (by omega) hne
    cases hp : ulongParse (si_readByte 127 s).buf with
    | none =>
      rw [hp] at h
      injection h with h3 h4
      rw [← h3]
      exact hlt
    | some v =>
      rw [hp] at h
      cases h

/-- A retrying iteration of the `si_getULongLong` loop consumed part of the
stream. -/
lemma si_getULongLong_step_retry (s r : List Nat) (ds : List Diag)
    (h : si_getULongLong_step s = StepOut.retry r ds) : r.length < s.length := by
  unfold si_getULongLong_step si_getULongLong_post at h
  by_cases h1 : (si_readByte 127 s).res ≠ 0
  · rw [if_pos h1] at h
    cases h
  · rw [if_neg h1] at h
    push_neg at h1
    have hne : (si_readByte 127 s).res ≠ -1 := by rw [h1]; decide
    have hlt := si_readByte_consumes 127 s (by omega) hne
    cases hp : ulongLongParse (si_readByte 127 s).buf with
    | none =>
      rw [hp] at h
      injection h with h3 h4
      rw [← h3]
      exact hlt
    | some v =>
      rw [hp] at h
      cases h

/-- A retrying iteration of the `si_getChar` loop consumed part of the
stream. -/
lemma si_getChar_step_retry (s r : List Nat) (ds : List Diag)
    (h : si_getChar_step s = StepOut.retry r ds) : r.length < s.length := by
  unfold si_getChar_step si_getChar_post at h
  by_cases h1 : (si_readByte 3 s).res = -1
  · rw [if_pos h1] at h
    cases h
  · rw [if_neg h1] at h
    have hlt := si_readByte_consumes 3 s (by omega) h1
    by_cases h2 : (si_readByte 3 s).res = 1
    · rw [if_pos h2] at h
      injection h with h3 h4
      rw [← h3]
      exact hlt
    · rw [if_neg h2] at h
      by_cases h3 : (si_readByte 3 s).len = 0
      · rw [if_pos h3] at h
        cases h
      · rw [if_neg h3] at h
        by_cases h4 : (si_readByte 3 s).len = 1
        · rw [if_pos h4] at h
          cases h
        · rw [if_neg h4] at h
          injection h with h5 h6
          rw [← h5]
          exact hlt

/-- A retrying iteration of the `si_getCharFiltered` loop consumed part of
the stream. -/
lemma si_getCharFiltered_step_retry (allowed s r : List Nat) (ds : List Diag)
    (h : si_getCharFiltered_step allowed s = StepOut.retry r ds) :
    r.length < s.length := by
  unfold si_getCharFiltered_step si_getCharFiltered_post at h
  by_cases h1 : (si_readByte 3 s).res = -1
  · rw [if_pos h1] at h
    cases h
  · rw [if_neg h1] at h
    have hlt := si_readByte_consumes 3 s (by omega) h1
    by_cases h2 : (si_readByte 3 s).res = 1
    · rw [if_pos h2] at h
      injection h with h3 h4
      rw [← h3]
      exact hlt
    · rw [if_neg h2] at h
      by_cases h3 : (si_readByte 3 s).len ≠ 1
      · rw [if_pos h3] at h
        injection h with h4 h5
        rw [← h4]
        exact hlt
      · rw [if_neg h3] at h
        by_cases h4 : (si_readByte 3 s).buf.headD 0 = 0 ∨
            (cstrOf allowed).contains ((si_readByte 3 s).buf.headD 0)
        · rw [if_pos h4] at h
          cases h
        · rw [if_neg h4] at h
          injection h with h5 h6
          rw [← h5]
          exact hlt

/-- The `while (1)` loop of `si_getInt`: iterate `si_getInt_step` until it
returns; the result is the returned `int`, the remaining stream, and all
diagnostics emitted. -/
def si_getInt (s : List Nat) : Int × List Nat × List Diag :=
  match h : si_getInt_step s with
  | StepOut.ret v r ds => (v, r, ds)
  | StepOut.retry r ds =>
    let o := si_getInt r
    (o.1, o.2.1, ds ++ o.2.2)
termination_by s.length
decreasing_by exact si_getInt_step_retry s r ds h

/-- The `while (1)` loop of `si_getUInt`. -/
def si_getUInt (s : List Nat) : Nat × List Nat × List Diag :=
  match h : si_getUInt_step s with
  | StepOut.ret v r ds => (v, r, ds)
  | StepOut.retry r ds =>
    let o := si_getUInt r
    (o.1, o.2.1, ds ++ o.2.2)
termination_by s.length
decreasing_by exact si_getUInt_step_retry s r ds h

/-- The `while (1)` loop of `si_getULong`. -/
def si_getULong (s : List Nat) : Nat × List Nat × List Diag :=
  match h : si_getULong_step s with
  | StepOut.ret v r ds => (v, r, ds)
  | StepOut.retry r ds =>
    let o := si_getULong r
    (o.1, o.2.1, ds ++ o.2.2)
termination_by s.length
decreasing_by exact si_getULong_step_retry s r ds h

/-- The `while (1)` loop of `si_getULongLong`. -/
def si_getULongLong (s : List Nat) : Nat × List Nat × List Diag :=
  match h : si_getULongLong_step s with
  | StepOut.ret v r ds => (v, r, ds)
  | StepOut.retry r ds =>
    let o := si_getULongLong r
    (o.1, o.2.1, ds ++ o.2.2)
termination_by s.length
decreasing_by exact si_getULongLong_step_retry s r ds h

/-- The `while (1)` loop of `si_getChar`. -/
def si_getChar (s : List Nat) : Int × List Nat × List Diag :=
  match h : si_getChar_step s with
  | StepOut.ret v r ds => (v, r, ds)
  | StepOut.retry r ds =>
    let o := si_getChar r
    (o.1, o.2.1, ds ++ o.2.2)
termination_by s.length
decreasing_by exact si_getChar_step_retry s r ds h

/-- The `while (1)` loop of `si_getCharFiltered` (entered only after the
allow-set checks pass). -/
def si_getCharFilteredLoop (allowed : List Nat) (s : List Nat) :
    Int × List Nat × List Diag :=
  match h : si_getCharFiltered_step allowed s with
  | StepOut.ret v r ds => (v, r, ds)
  | StepOut.retry r ds =>
    let o := si_getCharFilteredLoop allowed r
    (o.1, o.2.1, ds ++ o.2.2)
termination_by s.length
decreasing_by exact si_getCharFiltered_step_retry allowed s r ds h

/-- `si_getCharFiltered(allowed)`: the `allowed == NULL` check (which calls
`exit`) is not representable, since the model passes the allow-set by value;
the `allowed[0] == '\0'` check reports the configuration error and returns
`1` without touching the input stream; otherwise the retry loop runs. -/
def si_getCharFiltered (allowed : List Nat) (s : List Nat) :
    Int × List Nat × List Diag :=
  if allowed.headD 0 = 0 then (1, s, [Diag.noAllowed])
  else si_getCharFilteredLoop allowed s

/-- `si_getCString`: one `si_readByte` (no retry loop); on success the
buffer plus the stored NUL terminator is copied into a fresh allocation of
`len + 1` bytes; on any nonzero `si_readByte` result, NULL. -/
def si_getCString (s : List Nat) : Option (List Nat) × List Nat × List Diag :=
  let r := si_readByte 127 s
  if r.res ≠ 0 then (none, r.rest, r.diags)
  else (some (r.buf ++ [0]), r.rest, r.diags)

/-- The `si_string` struct: `data` models the `char *data` pointer — `none`
is NULL, `some (n, bytes)` is an owned allocation of `n = malloc` size bytes
whose initialized prefix is `bytes`; `len` is the byte counter field. -/
structure si_string where
  data : Option (Nat × List Nat)
  len : Nat
deriving DecidableEq, Repr

/-- `si_getString`: one `si_readByte` with `maxLen = sizeof(buffer) = 128`
(no retry loop, no NUL terminator); on success allocates
`malloc(len ? len : 1)` bytes and copies exactly `len` bytes; on any nonzero
`si_readByte` result returns `{ NULL, 0 }`. -/
def si_getString (s : List Nat) : si_string × List Nat × List Diag :=
  let r := si_readByte 128 s
  if r.res ≠ 0 then (⟨none, 0⟩, r.rest, r.diags)
  else (⟨some (if r.len = 0 then 1 else r.len, r.buf), r.len⟩, r.rest, r.diags)

/-- Unfolding: a returning first iteration determines `si_getInt`. -/
lemma si_getInt_ret (s : List Nat) (v : Int) (r : List Nat) (ds : List Diag)
    (h : si_getInt_step s = StepOut.ret v r ds) : si_getInt s = (v, r, ds) := by
  rw [si_getInt.eq_def]
  split
  next v2 r2 ds2 heq =>
    rw [h] at heq
    injection heq with a b c
    rw [← a, ← b, ← c]
  next r2 ds2 heq =>
    rw [h] at heq
    cases heq

/-- Unfolding: a retrying first iteration of `si_getInt` loops on the
remaining stream and prepends its diagnostics. -/
lemma si_getInt_retry (s r : List Nat) (ds : List Diag)
    (h : si_getInt_step s = StepOut.retry r ds) :
    si_getInt s = ((si_getInt r).1, (si_getInt r).2.1, ds ++ (si_getInt r).2.2) := by
  rw [si_getInt.eq_def]
  split
  next v2 r2 ds2 heq =>
    rw [h] at heq
    cases heq
  next r2 ds2 heq =>
    rw [h] at heq
    injection heq with a b
    rw [← a, ← b]

/-- Unfolding: a returning first iteration determines `si_getUInt`. -/
lemma si_getUInt_ret (s : List Nat) (v : Nat) (r : List Nat) (ds : List Diag)
    (h : si_getUInt_step s = StepOut.ret v r ds) : si_getUInt s = (v, r, ds) := by
  rw [si_getUInt.eq_def]
  split
  next v2 r2 ds2 heq =>
    rw [h] at heq
    injection heq with a b c
    rw [← a, ← b, ← c]
  next r2 ds2 heq =>
    rw [h] at heq
    cases heq

/-- Unfolding: a retrying first iteration of `si_getUInt` loops on the
remaining stream and prepends its diagnostics. -/
lemma si_getUInt_retry (s r : List Nat) (ds : List Diag)
    (h : si_getUInt_step s = StepOut.retry r ds) :
    si_getUInt s = ((si_getUInt r).1, (si_getUInt r).2.1, ds ++ (si_getUInt r).2.2) := by
  rw [si_getUInt.eq_def]
  split
  next v2 r2 ds2 heq =>
    rw [h] at heq
    cases heq
  next r2 ds2 heq =>
    rw [h] at heq
    injection heq with a b
    rw [← a, ← b]

/-- Unfolding: a returning first iteration determines `si_getULong`. -/
lemma si_getULong_ret (s : List Nat) (v : Nat) (r : List Nat) (ds : List Diag)
    (h : si_getULong_step s = StepOut.ret v r ds) : si_getULong s = (v, r, ds) := by
  rw [si_getULong.eq_def]
  split
  next v2 r2 ds2 heq =>
    rw [h] at heq
    injection heq with a b c
    rw [← a, ← b, ← c]
  next r2 ds2 heq =>
    rw [h] at heq
    cases heq

/-- Unfolding: a returning first iteration determines `si_getULongLong`. -/
lemma si_getULongLong_ret (s : List Nat) (v : Nat) (r : List Nat) (ds : List Diag)
    (h : si_getULongLong_step s = StepOut.ret v r ds) :
    si_getULongLong s = (v, r, ds) := by
  rw [si_getULongLong.eq_def]
  split
  next v2 r2 ds2 heq =>
    rw [h] at heq
    injection heq with a b c
    rw [← a, ← b, ← c]
  next r2 ds2 heq =>
    rw [h] at heq
    cases heq

/-- Unfolding: a returning first iteration determines `si_getChar`. -/
lemma si_getChar_ret (s : List Nat) (v : Int) (r : List Nat) (ds : List Diag)
    (h : si_getChar_step s = StepOut.ret v r ds) : si_getChar s = (v, r, ds) := by
  rw [si_getChar.eq_def]
  split
  next v2 r2 ds2 heq =>
    rw [h] at heq
    injection heq with a b c
    rw [← a, ← b, ← c]
  next r2 ds2 heq =>
    rw [h] at heq
    cases heq

/-- Unfolding: a retrying first iteration of `si_getChar` loops on the
remaining stream and prepends its diagnostics. -/
lemma si_getChar_retry (s r : List Nat) (ds : List Diag)
    (h : si_getChar_step s = StepOut.retry r ds) :
    si_getChar s = ((si_getChar r).1, (si_getChar r).2.1, ds ++ (si_getChar r).2.2) := by
  rw [si_getChar.eq_def]
  split
  next v2 r2 ds2 heq =>
    rw [h] at heq
    cases heq
  next r2 ds2 heq =>
    rw [h] at heq
    injection heq with a b
    rw [← a, ← b]

/-- Unfolding: a returning first iteration determines
`si_getCharFilteredLoop`. -/
lemma si_getCharFilteredLoop_ret (allowed s : List Nat) (v : Int) (r : List Nat)
    (ds : List Diag) (h : si_getCharFiltered_step allowed s = StepOut.ret v r ds) :
    si_getCharFilteredLoop allowed s = (v, r, ds) := by
  rw [si_getCharFilteredLoop.eq_def]
  split
  next v2 r2 ds2 heq =>
    rw [h] at heq
    injection heq with a b c
    rw [← a, ← b, ← c]
  next r2 ds2 heq =>
    rw [h] at heq
    cases heq

/-- A non-EOF `si_getChar` call consumed part of the stream (ensures the
`si_getBool` loop is well defined). -/
lemma si_getChar_consumes (s : List Nat) (h : (si_getChar s).1 ≠ -1) :
    (si_getChar s).2.1.length < s.length := by
  induction s using si_getChar.induct with
  | case1 s v r ds hstep =>
    rw [si_getChar_ret s v r ds hstep] at h ⊢
    unfold si_getChar_step si_getChar_post at hstep
    by_cases h1 : (si_readByte 3 s).res = -1
    · rw [if_pos h1] at hstep
      injection hstep with h2 h3 h4
      exact absurd h2.symm h
    · have hlt := si_readByte_consumes 3 s (by omega) h1
      rw [if_neg h1] at hstep
      by_cases h2 : (si_readByte 3 s).res = 1
      · rw [if_pos h2] at hstep
        cases hstep
      · rw [if_neg h2] at hstep
        by_cases h3 : (si_readByte 3 s).len = 0
        · rw [if_pos h3] at hstep
          injection hstep with h4 h5 h6
          show r.length < s.length
          rw [← h5]
          exact hlt
        · rw [if_neg h3] at hstep
          by_cases h4 : (si_readByte 3 s).len = 1
          · rw [if_pos h4] at hstep
            injection hstep with h5 h6 h7
            show r.length < s.length
            rw [← h6]
            exact hlt
          · rw [if_neg h4] at hstep
            cases hstep
  | case2 s r ds hstep ih =>
    rw [si_getChar_retry s r ds hstep] at h ⊢
    have hlt := si_getChar_step_retry s r ds hstep
    exact lt_trans (ih h) hlt

/-- The `while (1)` loop of `si_getBool`: delegates to `si_getChar`, maps
EOF to `false` with a diagnostic, `Y`/`y` to `true`, `N`/`n` to `false`,
and reports and retries on anything else. -/
def si_getBool (s : List Nat) : Bool × List Nat × List Diag :=
  if h : (si_getChar s).1 = -1 then
    (false, (si_getChar s).2.1, (si_getChar s).2.2 ++ [Diag.eofFalse])
  else if (si_getChar s).1 = 89 ∨ (si_getChar s).1 = 121 then
    (true, (si_getChar s).2.1, (si_getChar s).2.2)
  else if (si_getChar s).1 = 78 ∨ (si_getChar s).1 = 110 then
    (false, (si_getChar s).2.1, (si_getChar s).2.2)
  else
    ((si_getBool (si_getChar s).2.1).1, (si_getBool (si_getChar s).2.1).2.1,
      (si_getChar s).2.2 ++ Diag.enterYN :: (si_getBool (si_getChar s).2.1).2.2)
termination_by s.length
decreasing_by all_goals exact si_getChar_consumes s h

/-- Unfolding `si_getBool` when `si_getChar` signals EOF. -/
lemma si_getBool_eof (s : List Nat) (h : (si_getChar s).1 = -1) :
    si_getBool s = (false, (si_getChar s).2.1, (si_getChar s).2.2 ++ [Diag.eofFalse]) := by
  rw [si_getBool.eq_def, dif_pos h]

/-- Unfolding `si_getBool` on an accepted yes character. -/
lemma si_getBool_yes (s : List Nat) (hne : (si_getChar s).1 ≠ -1)
    (hy : (si_getChar s).1 = 89 ∨ (si_getChar s).1 = 121) :
    si_getBool s = (true, (si_getChar s).2.1, (si_getChar s).2.2) := by
  rw [si_getBool.eq_def, dif_neg hne, if_pos hy]

/-- Unfolding `si_getBool` on an accepted no character. -/
lemma si_getBool_no (s : List Nat) (hne : (si_getChar s).1 ≠ -1)
    (hy : ¬((si_getChar s).1 = 89 ∨ (si_getChar s).1 = 121))
    (hn : (si_getChar s).1 = 78 ∨ (si_getChar s).1 = 110) :
    si_getBool s = (false, (si_getChar s).2.1, (si_getChar s).2.2) := by
  rw [si_getBool.eq_def, dif_neg hne, if_neg hy, if_pos hn]

/-- Unfolding `si_getBool` on a rejected character: report and retry. -/
lemma si_getBool_other (s : List Nat) (hne : (si_getChar s).1 ≠ -1)
    (hy : ¬((si_getChar s).1 = 89 ∨ (si_getChar s).1 = 121))
    (hn : ¬((si_getChar s).1 = 78 ∨ (si_getChar s).1 = 110)) :
    si_getBool s =
      ((si_getBool (si_getChar s).2.1).1, (si_getBool (si_getChar s).2.1).2.1,
        (si_getChar s).2.2 ++ Diag.enterYN :: (si_getBool (si_getChar s).2.1).2.2) := by
  rw [si_getBool.eq_def, dif_neg hne, if_neg hy, if_neg hn]

/-- A nonzero read result makes `si_getInt` return the sentinel at once. -/
lemma si_getInt_post_err (res : Int) (w : List Nat) (n : Nat) (rest : List Nat)
    (ds : List Diag) (h : res ≠ 0) :
    si_getInt_post ⟨res, w, n, rest, ds⟩ = StepOut.ret intMin rest ds := by
  simp [si_getInt_post, h]

/-- A successful read with a valid buffer makes `si_getInt` return. -/
lemma si_getInt_post_ok (w : List Nat) (n : Nat) (rest : List Nat) (ds : List Diag)
    (v : Int) (hp : intParse w = some v) :
    si_getInt_post ⟨0, w, n, rest, ds⟩ = StepOut.ret v rest ds := by
  simp [si_getInt_post, hp]

/-- A successful read with an invalid buffer makes `si_getInt` report and
retry. -/
lemma si_getInt_post_bad (w : List Nat) (n : Nat) (rest : List Nat) (ds : List Diag)
    (hp : intParse w = none) :
    si_getInt_post ⟨0, w, n, rest, ds⟩ = StepOut.retry rest (ds ++ [Diag.invalidInput]) := by
  simp [si_getInt_post, hp]

/-- A nonzero read result makes `si_getUInt` return the sentinel at once. -/
lemma si_getUInt_post_err (res : Int) (w : List Nat) (n : Nat) (rest : List Nat)
    (ds : List Diag) (h : res ≠ 0) :
    si_getUInt_post ⟨res, w, n, rest, ds⟩ = StepOut.ret uintMax rest ds := by
  simp [si_getUInt_post, h]

/-- A leading minus makes `si_getUInt` report "can not be negative" and
retry, before the generic validation. -/
lemma si_getUInt_post_neg (w : List Nat) (n : Nat) (rest : List Nat) (ds : List Diag)
    (hw : w.headD 0 = 45) :
    si_getUInt_post ⟨0, w, n, rest, ds⟩ = StepOut.retry rest (ds ++ [Diag.negative]) := by
  have hw2 : w.head?.getD 0 = 45 := by simpa using hw
  simp [si_getUInt_post, hw2]

/-- A nonzero read result makes `si_getULong` return the sentinel at once. -/
lemma si_getULong_post_err (res : Int) (w : List Nat) (n : Nat) (rest : List Nat)
    (ds : List Diag) (h : res ≠ 0) :
    si_getULong_post ⟨res, w, n, rest, ds⟩ = StepOut.ret ulongMax rest ds := by
  simp [si_getULong_post, h]

/-- A successful read with a valid buffer makes `si_getULong` return. -/
lemma si_getULong_post_ok (w : List Nat) (n : Nat) (rest : List Nat) (ds : List Diag)
    (v : Nat) (hp : ulongParse w = some v) :
    si_getULong_post ⟨0, w, n, rest, ds⟩ = StepOut.ret v rest ds := by
  simp [si_getULong_post, hp]

/-- A nonzero read result makes `si_getULongLong` return the sentinel at
once. -/
lemma si_getULongLong_post_err (res : Int) (w : List Nat) (n : Nat) (rest : List Nat)
    (ds : List Diag) (h : res ≠ 0) :
    si_getULongLong_post ⟨res, w, n, rest, ds⟩ = StepOut.ret ulongMax rest ds := by
  simp [si_getULongLong_post, h]

/-- A successful read with a valid buffer makes `si_getULongLong` return. -/
lemma si_getULongLong_post_ok (w : List Nat) (n : Nat) (rest : List Nat)
    (ds : List Diag) (v : Nat) (hp : ulongLongParse w = some v) :
    si_getULongLong_post ⟨0, w, n, rest, ds⟩ = StepOut.ret v rest ds := by
  simp [si_getULongLong_post, hp]

/-- A result-1 read (overrun) makes `si_getChar` retry. -/
lemma si_getChar_post_overrun (w : List Nat) (n : Nat) (rest : List Nat)
    (ds : List Diag) :
    si_getChar_post ⟨1, w, n, rest, ds⟩ = StepOut.retry rest ds := by
  simp [si_getChar_post]

/-- An EOF read makes `si_getChar` return the EOF sentinel. -/
lemma si_getChar_post_eof (w : List Nat) (n : Nat) (rest : List Nat)
    (ds : List Diag) :
    si_getChar_post ⟨-1, w, n, rest, ds⟩ = StepOut.ret (-1) rest ds := by
  simp [si_getChar_post]

/-- A zero-length line makes `si_getChar` return the newline value. -/
lemma si_getChar_post_empty (w : List Nat) (rest : List Nat) (ds : List Diag) :
    si_getChar_post ⟨0, w, 0, rest, ds⟩ = StepOut.ret 10 rest ds := by
  simp [si_getChar_post]

/-- A one-byte line makes `si_getChar` return the byte. -/
lemma si_getChar_post_one (b : Nat) (w : List Nat) (rest : List Nat) (ds : List Diag)
    (hw : w.headD 0 = b) :
    si_getChar_post ⟨0, w, 1, rest, ds⟩ = StepOut.ret (b : Int) rest ds := by
  have hw2 : w.head?.getD 0 = b := by simpa using hw
  simp [si_getChar_post, hw2]

/-- A line of length other than 0 or 1 makes `si_getChar` report and retry. -/
lemma si_getChar_post_long (w : List Nat) (n : Nat) (rest : List Nat) (ds : List Diag)
    (hn : 2 ≤ n) :
    si_getChar_post ⟨0, w, n, rest, ds⟩ = StepOut.retry rest (ds ++ [Diag.singleChar]) := by
  have h0 : n ≠ 0 := by omega
  have h1 : n ≠ 1 := by omega
  simp [si_getChar_post, h0, h1]

/-- A result-1 read (overrun) makes `si_getCharFiltered` retry. -/
lemma si_getCharFiltered_post_overrun (allowed w : List Nat) (n : Nat)
    (rest : List Nat) (ds : List Diag) :
    si_getCharFiltered_post allowed ⟨1, w, n, rest, ds⟩ = StepOut.retry rest ds := by
  simp [si_getCharFiltered_post]

/-- C1: for every capacity `c ≥ 1` and every newline-terminated input line
of length `L` read by `si_readByte` with `maxLen = c`: if `L < c` the call
succeeds (result 0) with byte count `L` and the whole line in the buffer;
if `L ≥ c` it signals overrun (result 1, with the overrun diagnostic), the
buffer holds exactly the first `c` bytes of the line, and the remainder of
the physical line including its terminator is consumed and discarded, so
the next read begins at the following line boundary `rest`. -/
theorem claim_C1 (c : Nat) (line rest : List Nat) (hc : 1 ≤ c)
    (hnl : ∀ b ∈ line, b ≠ 10) :
    (line.length < c →
      si_readByte c (line ++ 10 :: rest) = ⟨0, line, line.length, rest, []⟩) ∧
    (c ≤ line.length →
      si_readByte c (line ++ 10 :: rest) = ⟨1, line.take c, c, rest, [Diag.overrun]⟩) :=
  ⟨fun h => si_readByte_line_ok c line rest hc hnl h,
   fun h => si_readByte_line_overrun c line rest hc hnl h⟩

/-- Witness for C1 at capacity 2 and the 3-byte line "123" followed by
line "a": overrun, buffer "12", stream repositioned to the next line. -/
theorem claim_C1_witness :
    si_readByte 2 ([49, 50, 51] ++ 10 :: [97]) = ⟨1, [49, 50], 2, [97], [Diag.overrun]⟩ :=
  (claim_C1 2 [49, 50, 51] [97] (by decide) (by decide)).2 (by decide)

/-- C3: reaching end-of-stream with zero bytes written yields the distinct
EOF signal (-1), never a success with count 0, while a line whose
terminator is seen after zero bytes yields success (result 0) with count 0;
the two outcomes are always distinguishable. -/
theorem claim_C3 (m : Nat) (rest : List Nat) (hm : 1 ≤ m) :
    si_readByte m [] = ⟨-1, [], 0, [], []⟩ ∧
    si_readByte m (10 :: rest) = ⟨0, [], 0, rest, []⟩ ∧
    (si_readByte m []).res ≠ 0 := by
  have h1 := si_readByte_nil m hm
  have h2 : si_readByte m ([] ++ 10 :: rest) = ⟨0, [], 0, rest, []⟩ :=
    si_readByte_line_ok m [] rest hm (by simp) (by simpa using hm)
  exact ⟨h1, by simpa using h2, by rw [h1]; decide⟩

/-- Witness for C3 at capacity 4. -/
theorem claim_C3_witness :
    si_readByte 4 [] = ⟨-1, [], 0, [], []⟩ ∧
    si_readByte 4 [10] = ⟨0, [], 0, [], []⟩ :=
  ⟨(claim_C3 4 [] (by decide)).1, (claim_C3 4 [] (by decide)).2.1⟩

/-- C2 as stated is false: on an input line of 127 bytes (= the staging
capacity of the numeric accessors), `si_readByte` signals overrun, and
`si_getInt` returns its `INT_MIN` sentinel immediately instead of
re-invoking the line reader — the overrun is surfaced to the caller as a
returned sentinel value. -/
theorem claim_C2_counterexample :
    si_getInt (List.replicate 127 49 ++ [10]) = (-2147483648, [], [Diag.overrun]) := by
  have h : si_getInt_step (List.replicate 127 49 ++ [10]) =
      StepOut.ret (-2147483648) [] [Diag.overrun] := by decide
  exact si_getInt_ret _ _ _ _ h

/-- C2 amended: when the line reader signals an overrun, only the character
accessors (`si_getChar`, `si_getCharFiltered`, and hence `si_getBool`,
which delegates to `si_getChar`) stay in the retry loop; `si_getInt`,
`si_getUInt`, `si_getULong`, `si_getULongLong`, `si_getCString` and
`si_getString` treat the overrun like EOF and return their error/EOF
sentinel immediately, so for those accessors the overrun is surfaced to the
caller. -/
theorem claim_C2_amended (line rest : List Nat) (hnl : ∀ b ∈ line, b ≠ 10) :
    (127 ≤ line.length →
      si_getInt (line ++ 10 :: rest) = (intMin, rest, [Diag.overrun]) ∧
      si_getUInt (line ++ 10 :: rest) = (uintMax, rest, [Diag.overrun]) ∧
      si_getULong (line ++ 10 :: rest) = (ulongMax, rest, [Diag.overrun]) ∧
      si_getULongLong (line ++ 10 :: rest) = (ulongMax, rest, [Diag.overrun]) ∧
      si_getCString (line ++ 10 :: rest) = (none, rest, [Diag.overrun])) ∧
    (128 ≤ line.length →
      si_getString (line ++ 10 :: rest) = (⟨none, 0⟩, rest, [Diag.overrun])) ∧
    (3 ≤ line.length →
      si_getChar_step (line ++ 10 :: rest) = StepOut.retry rest [Diag.overrun] ∧
      ∀ allowed, si_getCharFiltered_step allowed (line ++ 10 :: rest) =
        StepOut.retry rest [Diag.overrun]) := by
  refine ⟨fun h127 => ?_, fun h128 => ?_, fun h3 => ?_⟩
  · have hr := si_readByte_line_overrun 127 line rest (by omega) hnl h127
    refine ⟨?_, ?_, ?_, ?_, ?_⟩
    · exact si_getInt_ret _ _ _ _ (by
        unfold si_getInt_step
        rw [hr]
        exact si_getInt_post_err 1 _ _ _ _ (by decide))
    · exact si_getUInt_ret _ _ _ _ (by
        unfold si_getUInt_step
        rw [hr]
        exact si_getUInt_post_err 1 _ _ _ _ (by decide))
    · exact si_getULong_ret _ _ _ _ (by
        unfold si_getULong_step
        rw [hr]
        exact si_getULong_post_err 1 _ _ _ _ (by decide))
    · exact si_getULongLong_ret _ _ _ _ (by
        unfold si_getULongLong_step
        rw [hr]
        exact si_getULongLong_post_err 1 _ _ _ _ (by decide))
    · unfold si_getCString
      rw [hr]
      simp
  · have hr := si_readByte_line_overrun 128 line rest (by omega) hnl h128
    unfold si_getString
    rw [hr]
    simp
  · have hr := si_readByte_line_overrun 3 line rest (by omega) hnl h3
    constructor
    · unfold si_getChar_step
      rw [hr]
      exact si_getChar_post_overrun _ _ _ _
    · intro allowed
      unfold si_getCharFiltered_step
      rw [hr]
      exact si_getCharFiltered_post_overrun allowed _ _ _ _

set_option maxRecDepth 4000 in
/-- Witness for the amended C2 on a 128-byte line of '1's: `si_getInt`
surfaces the overrun as `INT_MIN` while `si_getChar` retries. -/
theorem claim_C2_amended_witness :
    si_getInt (List.replicate 128 49 ++ 10 :: []) = (intMin, [], [Diag.overrun]) ∧
    si_getString (List.replicate 128 49 ++ 10 :: []) = (⟨none, 0⟩, [], [Diag.overrun]) ∧
    si_getChar_step (List.replicate 128 49 ++ 10 :: []) = StepOut.retry [] [Diag.overrun] :=
  ⟨((claim_C2_amended (List.replicate 128 49) [] (by decide)).1 (by decide)).1,
   (claim_C2_amended (List.replicate 128 49) [] (by decide)).2.1 (by decide),
   ((claim_C2_amended (List.replicate 128 49) [] (by decide)).2.2 (by decide)).1⟩

/-- C4 is right about the intent but fails on the code for `si_getULong`
and `si_getULongLong`: the line "-5" is accepted by both via unsigned
wraparound as 2^64 - 5, with no diagnostic; only `si_getUInt` implements
the "can not be negative" rejection-and-retry before generic validation. -/
theorem claim_C4_code_bug :
    si_getULong [45, 53, 10] = (18446744073709551611, [], []) ∧
    si_getULongLong [45, 53, 10] = (18446744073709551611, [], []) ∧
    si_getUInt_step [45, 53, 10] = StepOut.retry [] [Diag.negative] ∧
    si_getUInt [45, 53, 10] = (4294967295, [], [Diag.negative]) := by
  refine ⟨?_, ?_, by decide, ?_⟩
  · exact si_getULong_ret _ _ _ _ (by decide)
  · exact si_getULongLong_ret _ _ _ _ (by decide)
  · have h1 : si_getUInt_step [45, 53, 10] = StepOut.retry [] [Diag.negative] := by decide
    have h2 : si_getUInt_step [] = StepOut.ret 4294967295 [] [] := by decide
    rw [si_getUInt_retry _ _ _ h1, si_getUInt_ret _ _ _ _ h2]
    rfl

/-- C5: `si_getInt` conversion is strict and whole-buffer: "123" returns
123; "123abc" (unconsumed suffix) is rejected and retried; the empty line
is rejected and retried; "2147483647" (exactly `INT_MAX`) is accepted and
returned; "2147483647" with any further digit appended is rejected as out
of `int` range and retried. -/
theorem claim_C5 (rest : List Nat) :
    si_getInt ([49, 50, 51] ++ 10 :: rest) = (123, rest, []) ∧
    si_getInt_step ([49, 50, 51, 97, 98, 99] ++ 10 :: rest) =
      StepOut.retry rest [Diag.invalidInput] ∧
    si_getInt_step (10 :: rest) = StepOut.retry rest [Diag.invalidInput] ∧
    si_getInt ([50, 49, 52, 55, 52, 56, 51, 54, 52, 55] ++ 10 :: rest) =
      (2147483647, rest, []) ∧
    (∀ d : Nat, 48 ≤ d → d ≤ 57 →
      si_getInt_step ([50, 49, 52, 55, 52, 56, 51, 54, 52, 55, d] ++ 10 :: rest) =
        StepOut.retry rest [Diag.invalidInput]) := by
  refine ⟨?_, ?_, ?_, ?_, ?_⟩
  · refine si_getInt_ret _ _ _ _ ?_
    unfold si_getInt_step
    rw [si_readByte_line_ok 127 [49, 50, 51] rest (by omega) (by decide) (by decide)]
    exact si_getInt_post_ok _ _ _ _ 123 (by decide)
  · unfold si_getInt_step
    rw [si_readByte_line_ok 127 [49, 50, 51, 97, 98, 99] rest (by omega) (by decide)
      (by decide)]
    exact si_getInt_post_bad _ _ _ _ (by decide)
  · have hr : si_readByte 127 (10 :: rest) = ⟨0, [], 0, rest, []⟩ := by
      simpa using si_readByte_line_ok 127 [] rest (by omega) (by simp) (by simp)
    unfold si_getInt_step
    rw [hr]
    exact si_getInt_post_bad _ _ _ _ (by decide)
  · refine si_getInt_ret _ _ _ _ ?_
    unfold si_getInt_step
    rw [si_readByte_line_ok 127 [50, 49, 52, 55, 52, 56, 51, 54, 52, 55] rest (by omega)
      (by decide) (by decide)]
    exact si_getInt_post_ok _ _ _ _ 2147483647 (by decide)
  · intro d h48 h57
    interval_cases d <;>
      (unfold si_getInt_step
       rw [si_readByte_line_ok 127 _ rest (by omega) (by decide) (by decide)]
       exact si_getInt_post_bad _ _ _ _ (by decide))

/-- Witness for C5: appending the digit '9' to "2147483647" is rejected
and retried. -/
theorem claim_C5_witness :
    si_getInt_step ([50, 49, 52, 55, 52, 56, 51, 54, 52, 55, 57] ++ 10 :: []) =
      StepOut.retry [] [Diag.invalidInput] :=
  (claim_C5 []).2.2.2.2 57 (by decide) (by decide)

/-- C6 is right that an empty (non-null) allow-set is reported and returns
immediately without reading input or retrying, but the returned value is
`1`, not the accessor's designated out-of-band end marker `EOF = -1`: `1`
is an in-band character code that a legitimate call can also return (third
conjunct), contradicting the function's own documentation ("returns EOF on
error or EOF"). -/
theorem claim_C6_code_bug (s : List Nat) :
    si_getCharFiltered [] s = (1, s, [Diag.noAllowed]) ∧
    (1 : Int) ≠ -1 ∧
    si_getCharFiltered [1] [1, 10] = (1, [], []) := by
  refine ⟨?_, by decide, ?_⟩
  · simp [si_getCharFiltered]
  · unfold si_getCharFiltered
    rw [if_neg (by decide)]
    exact si_getCharFilteredLoop_ret _ _ _ _ _ (by decide)

/-- C7: `si_getChar` on a newline-terminated line: a zero-length line
returns the newline value 10; a one-byte line returns that byte; a line of
any other length (2, or ≥ 3 which overruns the 3-byte staging capacity) is
rejected with a diagnostic and the loop retries rather than returning. -/
theorem claim_C7 (line rest : List Nat) (hnl : ∀ b ∈ line, b ≠ 10) :
    (line.length = 0 → si_getChar (line ++ 10 :: rest) = (10, rest, [])) ∧
    (line.length = 1 →
      si_getChar (line ++ 10 :: rest) = (((line.headD 0 : Nat) : Int), rest, [])) ∧
    (line.length = 2 →
      si_getChar_step (line ++ 10 :: rest) = StepOut.retry rest [Diag.singleChar]) ∧
    (3 ≤ line.length →
      si_getChar_step (line ++ 10 :: rest) = StepOut.retry rest [Diag.overrun]) := by
  refine ⟨fun h0 => ?_, fun h1 => ?_, fun h2 => ?_, fun h3 => ?_⟩
  · have hr := si_readByte_line_ok 3 line rest (by omega) hnl (by omega)
    refine si_getChar_ret _ _ _ _ ?_
    unfold si_getChar_step
    rw [hr, h0]
    exact si_getChar_post_empty _ _ _
  · have hr := si_readByte_line_ok 3 line rest (by omega) hnl (by omega)
    refine si_getChar_ret _ _ _ _ ?_
    unfold si_getChar_step
    rw [hr, h1]
    exact si_getChar_post_one _ _ _ _ rfl
  · have hr := si_readByte_line_ok 3 line rest (by omega) hnl (by omega)
    unfold si_getChar_step
    rw [hr, h2]
    exact si_getChar_post_long _ _ _ _ (by omega)
  · have hr := si_readByte_line_overrun 3 line rest (by omega) hnl h3
    unfold si_getChar_step
    rw [hr]
    exact si_getChar_post_overrun _ _ _ _

/-- Witness for C7: empty line gives 10, "a" gives 97, "ab" retries. -/
theorem claim_C7_witness :
    si_getChar ([] ++ 10 :: []) = (10, [], []) ∧
    si_getChar ([97] ++ 10 :: []) = (97, [], []) ∧
    si_getChar_step ([97, 98] ++ 10 :: []) = StepOut.retry [] [Diag.singleChar] :=
  ⟨(claim_C7 [] [] (by decide)).1 (by decide),
   (claim_C7 [97] [] (by decide)).2.1 (by decide),
   (claim_C7 [97, 98] [] (by decide)).2.2.1 (by decide)⟩

/-- C8: `si_getBool` returns true for a one-byte line 'y' (121) or 'Y'
(89), false for 'n' (110) or 'N' (78), reports and retries on any other
accepted character, and on end-of-stream emits a diagnostic and returns the
ordinary value false. -/
theorem claim_C8 (b : Nat) (rest : List Nat) (hb : b ≠ 10) :
    ((b = 89 ∨ b = 121) → si_getBool (b :: 10 :: rest) = (true, rest, [])) ∧
    ((b = 78 ∨ b = 110) → si_getBool (b :: 10 :: rest) = (false, rest, [])) ∧
    (¬(b = 89 ∨ b = 121 ∨ b = 78 ∨ b = 110) →
      si_getBool (b :: 10 :: rest) =
        ((si_getBool rest).1, (si_getBool rest).2.1,
          Diag.enterYN :: (si_getBool rest).2.2)) ∧
    si_getBool [] = (false, [], [Diag.eofFalse]) := by
  have hchar : si_getChar (b :: 10 :: rest) = (((b : Nat) : Int), rest, []) := by
    refine si_getChar_ret _ _ _ _ ?_
    unfold si_getChar_step
    have hr : si_readByte 3 (b :: 10 :: rest) = ⟨0, [b], 1, rest, []⟩ := by
      simpa using si_readByte_line_ok 3 [b] rest (by omega) (by simpa using hb) (by simp)
    rw [hr]
    exact si_getChar_post_one b [b] rest [] rfl
  have hne : (si_getChar (b :: 10 :: rest)).1 ≠ -1 := by
    rw [hchar]
    show (b : Int) ≠ -1
    omega
  refine ⟨fun hy => ?_, fun hn => ?_, fun ho => ?_, ?_⟩
  · have hy2 : (si_getChar (b :: 10 :: rest)).1 = 89 ∨
        (si_getChar (b :: 10 :: rest)).1 = 121 := by
      rw [hchar]
      show (b : Int) = 89 ∨ (b : Int) = 121
      omega
    rw [si_getBool_yes _ hne hy2, hchar]
  · have hy2 : ¬((si_getChar (b :: 10 :: rest)).1 = 89 ∨
        (si_getChar (b :: 10 :: rest)).1 = 121) := by
      rw [hchar]
      show ¬((b : Int) = 89 ∨ (b : Int) = 121)
      omega
    have hn2 : (si_getChar (b :: 10 :: rest)).1 = 78 ∨
        (si_getChar (b :: 10 :: rest)).1 = 110 := by
      rw [hchar]
      show (b : Int) = 78 ∨ (b : Int) = 110
      omega
    rw [si_getBool_no _ hne hy2 hn2, hchar]
  · have hy2 : ¬((si_getChar (b :: 10 :: rest)).1 = 89 ∨
        (si_getChar (b :: 10 :: rest)).1 = 121) := by
      rw [hchar]
      show ¬((b : Int) = 89 ∨ (b : Int) = 121)
      omega
    have hn2 : ¬((si_getChar (b :: 10 :: rest)).1 = 78 ∨
        (si_getChar (b :: 10 :: rest)).1 = 110) := by
      rw [hchar]
      show ¬((b : Int) = 78 ∨ (b : Int) = 110)
      omega
    rw [si_getBool_other _ hne hy2 hn2, hchar]
    rfl
  · have hc : si_getChar [] = (-1, [], []) := by
      refine si_getChar_ret _ _ _ _ ?_
      unfold si_getChar_step
      rw [si_readByte_nil 3 (by omega)]
      exact si_getChar_post_eof _ _ _ _
    have hval : (si_getChar []).1 = -1 := by rw [hc]
    rw [si_getBool_eof _ hval, hc]
    rfl

/-- Witness for C8: "y" gives true, "N" gives false, "x" retries (here
into an exhausted stream, so the loop ends with the EOF default). -/
theorem claim_C8_witness :
    si_getBool [121, 10] = (true, [], []) ∧
    si_getBool [78, 10] = (false, [], []) :=
  ⟨(claim_C8 121 [] (by decide)).1 (by decide),
   (claim_C8 78 [] (by decide)).2.1 (by decide)⟩

/-- C9: for the input line "hi", `si_getString` returns an owned 2-byte
allocation containing exactly {'h','i'} with length 2 and no terminator
appended, while `si_getCString` returns an owned 3-byte allocation
containing {'h','i','\0'}. -/
theorem claim_C9 (rest : List Nat) :
    si_getString ([104, 105] ++ 10 :: rest) = (⟨some (2, [104, 105]), 2⟩, rest, []) ∧
    si_getCString ([104, 105] ++ 10 :: rest) = (some [104, 105, 0], rest, []) := by
  constructor
  · have hr := si_readByte_line_ok 128 [104, 105] rest (by omega) (by decide) (by decide)
    unfold si_getString
    rw [hr]
    norm_num
  · have hr := si_readByte_line_ok 127 [104, 105] rest (by omega) (by decide) (by decide)
    unfold si_getCString
    rw [hr]
    norm_num

/-- C10: a successfully read empty line gives `si_getString` a non-null
1-byte allocation with `len = 0`, while the error/EOF sentinel is
`{ data := NULL, len := 0 }`; the two are distinguishable by the data
pointer. -/
theorem claim_C10 (rest : List Nat) :
    si_getString (10 :: rest) = (⟨some (1, []), 0⟩, rest, []) ∧
    si_getString [] = (⟨none, 0⟩, [], []) ∧
    (si_string.mk (some (1, [])) 0).data ≠ (si_string.mk none 0).data := by
  refine ⟨?_, ?_, by decide⟩
  · have hr : si_readByte 128 (10 :: rest) = ⟨0, [], 0, rest, []⟩ := by
      simpa using si_readByte_line_ok 128 [] rest (by omega) (by simp) (by simp)
    unfold si_getString
    rw [hr]
    norm_num
  · unfold si_getString
    rw [si_readByte_nil 128 (by omega)]
    norm_num

end SafeInput
